import Mathlib

/-!
Shallow embedding of the structural verification toolchain of this repository:
the four rule checkers (`verify-app-routes`, `verify-structure`,
`verify-feature-routes`, `verify-no-cross-feature-imports`) that parse
TypeScript sources and check architectural rules.

Conventions of the embedding:
* A parsed TypeScript file is modelled by the facets the checkers inspect
  (`TsExpr` for expressions, property lists for object literals, plus flat
  lists of imports, identifiers and string literals for the whole-file scans).
* JavaScript string operations (`startsWith`, `endsWith`, `includes`,
  `split`) are re-implemented over `List Char` by structural recursion so
  that every definition evaluates inside the kernel.
* Checker entry points return their accumulated violation list
  (`List String`); a run fails exactly when that list is nonempty.
-/

/-- Model of JS `pattern-is-prefix` over char lists: first argument is the
pattern, second the scanned list. -/
def listStartsWith : List Char → List Char → Bool
  | [], _ => true
  | _ :: _, [] => false
  | p :: ps, c :: cs => p == c && listStartsWith ps cs

/-- Model of JS `String.prototype.startsWith`. -/
def strStartsWith (s pre : String) : Bool :=
  listStartsWith pre.data s.data

/-- Model of JS `String.prototype.endsWith`. -/
def strEndsWith (s suf : String) : Bool :=
  listStartsWith suf.data.reverse s.data.reverse

/-- Does `pat` occur as a contiguous sublist? Model of JS
`String.prototype.includes` (over char lists). -/
def listIncludes (pat : List Char) : List Char → Bool
  | [] => listStartsWith pat []
  | c :: cs => listStartsWith pat (c :: cs) || listIncludes pat cs

/-- Model of JS `String.prototype.includes`. -/
def strIncludes (s pat : String) : Bool :=
  listIncludes pat.data s.data

/-- Split a char list on a separator char (model of JS
`String.prototype.split` with a one-char separator). -/
def splitChars (sep : Char) : List Char → List (List Char)
  | [] => [[]]
  | c :: cs =>
    let r := splitChars sep cs
    if c == sep then [] :: r
    else
      match r with
      | [] => [[c]]
      | h :: t => (c :: h) :: t

/-- Model of JS `String.prototype.split` with a one-char separator. -/
def strSplitOnChar (s : String) (sep : Char) : List String :=
  (splitChars sep s.data).map String.mk

/-- Model of node `path.join` restricted to appending one segment, as the
scripts use it (`path.join(dir, name)` with a plain name). -/
def pathJoin (a b : String) : String := a ++ ("/" ++ b)

/-- Model of node `path.dirname` for the absolute slash-separated paths the
scripts handle: drop the last path segment. -/
def pathDirname (p : String) : String :=
  String.intercalate "/" (strSplitOnChar p '/').dropLast

/-- Model of node `path.resolve dir spec` for an absolute base directory
`dir`: concatenate, split on the separator, and normalise, where an empty
segment or `.` is dropped and `..` removes the previously kept segment. -/
def pathResolve (dir spec : String) : String :=
  let segs := strSplitOnChar (dir ++ ("/" ++ spec)) '/'
  let norm := segs.foldl
    (fun acc seg =>
      if seg == "" || seg == "." then acc
      else if seg == ".." then acc.dropLast
      else acc ++ [seg])
    ([] : List String)
  "/" ++ String.intercalate "/" norm

/-- Model of node `path.relative root p` for the case the scripts exercise
(`p` lies under `root`): strip the root prefix. Other inputs are returned
unchanged. -/
def pathRelative (root p : String) : String :=
  if strStartsWith p (root ++ "/") then p.drop (root.length + 1) else p

/-!
A fragment of the TypeScript AST, covering exactly the node shapes the
checkers distinguish.  `TsProp.assign name init` is a `PropertyAssignment`
whose name resolves to `name` via `getPropName` (an identifier or a string
literal; `none` for a computed name).  `TsProp.otherMember` covers every
other object member (spread, shorthand, method), which `objectHasProp` and
`getPropInitializer` skip but tree walks still descend into.
`TsExpr.importCall args` is a call expression whose callee is the `import`
keyword; `TsExpr.node` is any other node with the listed children.
-/

mutual
inductive TsExpr where
  | strLit (s : String)
  | objLit (props : List TsProp)
  | arrLit (elems : List TsExpr)
  | importCall (args : List TsExpr)
  | node (children : List TsExpr)
inductive TsProp where
  | assign (name : Option String) (init : TsExpr)
  | otherMember (children : List TsExpr)
end

/-- Source `getStringValue` / `getStringLiteral`: the text of a string
literal node, else `null`. -/
def getStringValue : TsExpr → Option String
  | .strLit s => some s
  | _ => none

/-- Source `objectHasProp`: some property assignment has the given
resolvable name. -/
def objectHasProp (props : List TsProp) (propName : String) : Bool :=
  props.any fun p =>
    match p with
    | .assign (some n) _ => n == propName
    | _ => false

/-- Source `getPropInitializer`: initializer of the first property
assignment with the given name, else `null`. -/
def getPropInitializer (props : List TsProp) (propName : String) : Option TsExpr :=
  match props with
  | [] => none
  | .assign (some n) init :: rest =>
    if n == propName then some init else getPropInitializer rest propName
  | _ :: rest => getPropInitializer rest propName

/-- Head of a dynamic-import call's argument list matches the predicate
(only a string-literal first argument can match, as in the source). -/
def importArgMatches (p : String → Bool) : List TsExpr → Bool
  | .strLit s :: _ => p s
  | _ => false

mutual
/-- Recursive visit of the source predicates
`loadChildrenLooksLikeFeaturesImport` / `loadComponentLooksLikeNotFound` /
`loadComponentImportsPage`: does the tree contain a dynamic-import call
whose first argument is a string literal satisfying `p`? -/
def exprHasImport (p : String → Bool) : TsExpr → Bool
  | .strLit _ => false
  | .objLit props => propsHaveImport p props
  | .arrLit es => exprsHaveImport p es
  | .importCall args => importArgMatches p args || exprsHaveImport p args
  | .node cs => exprsHaveImport p cs
def exprsHaveImport (p : String → Bool) : List TsExpr → Bool
  | [] => false
  | e :: es => exprHasImport p e || exprsHaveImport p es
def propsHaveImport (p : String → Bool) : List TsProp → Bool
  | [] => false
  | .assign _ init :: ps => exprHasImport p init || propsHaveImport p ps
  | .otherMember cs :: ps => exprsHaveImport p cs || propsHaveImport p ps
end

/-- The string test inside `loadChildrenLooksLikeFeaturesImport`. -/
def isFeatureRoutesImportArg (s : String) : Bool :=
  strStartsWith s "./features/" && strEndsWith s ".routes"

/-- The string test inside `loadComponentLooksLikeNotFound`. -/
def isNotFoundImportArg (s : String) : Bool :=
  s == "./shared/pages/not-found.page"

/-- The string test inside `loadComponentImportsPage`. -/
def isPageImportArg (s : String) : Bool :=
  strEndsWith s ".page"

/-- Source `loadChildrenLooksLikeFeaturesImport`. -/
def loadChildrenLooksLikeFeaturesImport (init : TsExpr) : Bool :=
  exprHasImport isFeatureRoutesImportArg init

/-- Source `loadComponentLooksLikeNotFound`. -/
def loadComponentLooksLikeNotFound (init : TsExpr) : Bool :=
  exprHasImport isNotFoundImportArg init

/-- Source `loadComponentImportsPage`. -/
def loadComponentImportsPage (init : TsExpr) : Bool :=
  exprHasImport isPageImportArg init

/-! Violation messages of `verify-app-routes` (`main`), verbatim. -/

def objectsOnlyMsg : String :=
  "APP_ROUTES must contain only route objects."

def noComponentMsg : String :=
  "app.routes.ts must not use \"component:\"; use loadChildren/loadComponent only."

def needPathMsg : String :=
  "Every app route must have a literal string \"path\"."

def emptyRedirectMsg : String :=
  "Empty path route must be a redirect with redirectTo + pathMatch."

def wildcardNotFoundMsg : String :=
  "Wildcard route must loadComponent from \x27./shared/pages/not-found.page\x27."

def loadChildrenMissingMsg (pv : String) : String :=
  "Route \"" ++ (pv ++ "\" must use loadChildren for feature routes.")

def loadChildrenBadMsg (pv : String) : String :=
  "Route \"" ++ (pv ++ "\" loadChildren must import \x27./features/<feature>/<feature>.routes\x27.")

def wildcardCountMsg (n : Nat) : String :=
  "APP_ROUTES must contain exactly one wildcard \x27**\x27 route (found " ++ (Nat.repr n ++ ").")

/-- One iteration of the `verify-app-routes` walk (`for (const el of
arr.elements)`): the errors pushed for this element, and this element's
contribution to `wildcardCount`. -/
def appRouteElementCheck (el : TsExpr) : List String × Nat :=
  match el with
  | .objLit props =>
    let componentErrs :=
      if objectHasProp props "component" then [noComponentMsg] else []
    match (getPropInitializer props "path").bind getStringValue with
    | none => (componentErrs ++ [needPathMsg], 0)
    | some pv =>
      if pv == "" then
        (componentErrs ++
          (if !objectHasProp props "redirectTo" || !objectHasProp props "pathMatch" then
            [emptyRedirectMsg]
          else []), 0)
      else if pv == "**" then
        (componentErrs ++
          (match getPropInitializer props "loadComponent" with
           | none => [wildcardNotFoundMsg]
           | some lc =>
             if loadComponentLooksLikeNotFound lc then [] else [wildcardNotFoundMsg]), 1)
      else
        (componentErrs ++
          (match getPropInitializer props "loadChildren" with
           | none => [loadChildrenMissingMsg pv]
           | some lc =>
             if loadChildrenLooksLikeFeaturesImport lc then [] else [loadChildrenBadMsg pv]), 0)
  | _ => ([objectsOnlyMsg], 0)

/-- The `wildcardCount` accumulated by the `verify-app-routes` walk. -/
def appWildcardCount (elems : List TsExpr) : Nat :=
  (elems.map fun el => (appRouteElementCheck el).2).sum

/-- `verify-app-routes` `main`, from the located exported `routes` array
onward: the full violation list of the run (walk errors, then the wildcard
cardinality check). -/
def verifyAppRoutes (elems : List TsExpr) : List String :=
  let errors := elems.flatMap fun el => (appRouteElementCheck el).1
  errors ++
    (if appWildcardCount elems ≠ 1 then [wildcardCountMsg (appWildcardCount elems)] else [])

/-- An element the walk counts toward `wildcardCount`: an object literal
whose literal string `path` is `**`. -/
def isWildcardEntry : TsExpr → Bool
  | .objLit props => ((getPropInitializer props "path").bind getStringValue) == some "**"
  | _ => false

/-! Violation messages of `verify-feature-routes`
(`validateFeatureRoutesFile` / `main`), verbatim. -/

def frNoExportMsg (f : String) : String :=
  f ++ " must export at least one Routes array: export const X = [ ... ]"

def frEmptyMsg (f n : String) : String :=
  f ++ (" export \"" ++ (n ++ "\" must not be empty."))

def frNonObjMsg (f n : String) (idx : Nat) : String :=
  f ++ (" export \"" ++ (n ++ ("\" has a non-object route at index " ++ (Nat.repr idx ++ "."))))

def frComponentMsg (f n : String) : String :=
  f ++ (" export \"" ++ (n ++ "\" must not use \"component:\". Use loadComponent/loadChildren."))

def frPathMsg (f n : String) : String :=
  f ++ (" export \"" ++ (n ++ "\" first route must have path: \x27\x27"))

def frProvidersMsg (f n : String) : String :=
  f ++ (" export \"" ++ (n ++ "\" first route must declare providers: [ ... ]"))

def frLoaderMsg (f n : String) : String :=
  f ++ (" export \"" ++ (n ++ "\" first route must use loadComponent or loadChildren"))

def frFirstLcMsg (f n : String) : String :=
  f ++ (" export \"" ++ (n ++ "\" first route loadComponent should import a *.page file"))

def frAnyLcMsg (f n : String) : String :=
  f ++ (" export \"" ++ (n ++ "\" has loadComponent not importing a *.page file"))

def frMissingRoutesFileMsg (p : String) : String :=
  "Missing feature routes file: " ++ p

/-- Body of the `elements.forEach((el, idx) => ...)` callback in
`validateFeatureRoutesFile`: the errors pushed for element `el` at index
`idx` of the exported array named `n` in file `f`. -/
def frElementCheck (f n : String) (idx : Nat) (el : TsExpr) : List String :=
  match el with
  | .objLit props =>
    let componentErrs :=
      if objectHasProp props "component" then [frComponentMsg f n] else []
    let firstErrs :=
      if idx == 0 then
        let pathErr :=
          if ((getPropInitializer props "path").bind getStringValue) == some "" then []
          else [frPathMsg f n]
        let provErr :=
          if objectHasProp props "providers" then [] else [frProvidersMsg f n]
        let hasLC := objectHasProp props "loadComponent"
        let hasLCh := objectHasProp props "loadChildren"
        let loaderErr := if !hasLC && !hasLCh then [frLoaderMsg f n] else []
        let lcFirstErr :=
          if hasLC then
            match getPropInitializer props "loadComponent" with
            | some init =>
              if loadComponentImportsPage init then [] else [frFirstLcMsg f n]
            | none => []
          else []
        pathErr ++ (provErr ++ (loaderErr ++ lcFirstErr))
      else []
    let lcErr :=
      match getPropInitializer props "loadComponent" with
      | some lc => if loadComponentImportsPage lc then [] else [frAnyLcMsg f n]
      | none => []
    componentErrs ++ (firstErrs ++ lcErr)
  | _ => [frNonObjMsg f n idx]

/-- The `elements.forEach((el, idx) => ...)` traversal: check each element
with its index, starting from `idx`. -/
def frElementsCheck (f n : String) (idx : Nat) : List TsExpr → List String
  | [] => []
  | el :: rest => frElementCheck f n idx el ++ frElementsCheck f n (idx + 1) rest

/-- The per-export part of `validateFeatureRoutesFile` (`for (const ex of
exported)` body): an empty exported array is reported and skipped, otherwise
every element is checked with its index. -/
def frExportCheck (f : String) (ex : String × List TsExpr) : List String :=
  if ex.2.isEmpty then [frEmptyMsg f ex.1]
  else frElementsCheck f ex.1 0 ex.2

/-- A parsed TypeScript file, modelled by the facets the checkers read:
its module-import specifiers, the identifier texts and string-literal texts
occurring anywhere in it, and its exported `const <name> = [ ... ]` array
declarations in source order (name and element list). -/
structure ParsedFile where
  imports : List String
  identifiers : List String
  stringLits : List String
  exportedArrays : List (String × List TsExpr)

/-- Source `validateFeatureRoutesFile` on the parse of file `f`. -/
def validateFeatureRoutesFile (f : String) (file : ParsedFile) : List String :=
  if file.exportedArrays.isEmpty then [frNoExportMsg f]
  else file.exportedArrays.flatMap (frExportCheck f)

/-- An association-list filesystem model: the set of existing paths (files
and directories), the immediate-subdirectory names `readdirSync` yields per
directory, the parse result per file, and the recursive `.ts` listing per
root (source `listFilesRecursive(dir).filter(endsWith ".ts")`, which skips
`node_modules` / `dist` / `.angular`). -/
structure FsModel where
  paths : List String
  dirEntries : List (String × List String)
  parses : List (String × ParsedFile)
  tsListings : List (String × List String)

def emptyParsedFile : ParsedFile := ⟨[], [], [], []⟩

/-- Source `exists` (`fs.existsSync`). -/
def fsExists (fs : FsModel) (p : String) : Bool :=
  fs.paths.contains p

/-- Association-list lookup with a default. -/
def assocLookup (l : List (String × α)) (k : String) (d : α) : α :=
  match l.find? (fun e => e.1 == k) with
  | some e => e.2
  | none => d

/-- Source `listDirs` of `verify-structure` / `listFeatureNames` of
`verify-feature-routes`: the immediate subdirectory names, or `[]` when the
directory does not exist. -/
def listDirs (fs : FsModel) (dir : String) : List String :=
  if fsExists fs dir then assocLookup fs.dirEntries dir [] else []

/-- Source `parseSource` on the model. -/
def parseSourceM (fs : FsModel) (p : String) : ParsedFile :=
  assocLookup fs.parses p emptyParsedFile

/-- Source `listFilesRecursive(dir)` post-filtered to `.ts` files, on the
model. -/
def listTsFiles (fs : FsModel) (dir : String) : List String :=
  assocLookup fs.tsListings dir []

/-! Violation messages and sub-checks of `verify-structure` (`main` of the
structure checker), verbatim. -/

def appRootMissingMsg (appRoot : String) : String :=
  "App root not found: " ++ appRoot

def featuresDirMissingMsg (featuresDir : String) : String :=
  "Features dir not found: " ++ featuresDir

def noFeatureFoldersMsg (featuresDir : String) : String :=
  "No feature folders found in " ++ (featuresDir ++ ". Create at least one feature via pnpm gen:feature.")

/-- The four required per-feature file names. -/
def requiredFeatureFiles (featureName : String) : List String :=
  [featureName ++ ".routes.ts", featureName ++ ".page.ts",
   featureName ++ ".data.ts", featureName ++ ".state.ts"]

/-- Source `verifyFeatureFolder`: the required file names missing from the
feature directory. -/
def verifyFeatureFolder (fs : FsModel) (featureDir featureName : String) : List String :=
  (requiredFeatureFiles featureName).filter fun f => !fsExists fs (pathJoin featureDir f)

/-- The one violation `main` pushes for a feature with missing files. -/
def featureMissingMsg (featureDir featureName : String) (missing : List String) : String :=
  "Feature \"" ++ (featureName ++ ("\" missing required files:\n" ++
    String.intercalate "\n" (missing.map fun m => "  - " ++ pathJoin featureDir m)))

/-- The `for (const f of featureNames)` loop of `verify-structure` `main`:
one violation per feature with missing required files, listing them. -/
def missingFileErrors (fs : FsModel) (featuresDir : String) (featureNames : List String) : List String :=
  featureNames.flatMap fun f =>
    let featureDir := pathJoin featuresDir f
    let missing := verifyFeatureFolder fs featureDir f
    if missing.isEmpty then [] else [featureMissingMsg featureDir f missing]

def staticPageImportsMsg (bad : List String) : String :=
  "app.routes.ts must not statically import pages. Found:\n" ++
    String.intercalate "\n" (bad.map fun b => "  - " ++ b)

/-- Source `verifyNoStaticPageImportsInAppRoutes`. -/
def verifyNoStaticPageImportsInAppRoutes (fs : FsModel) (appRoutesFile : String) : List String :=
  if !fsExists fs appRoutesFile then ["Missing " ++ appRoutesFile]
  else
    let bad := (parseSourceM fs appRoutesFile).imports.filter fun s => strIncludes s ".page"
    if !bad.isEmpty then [staticPageImportsMsg bad] else []

def httpClientMsg (fp : String) : String :=
  "HttpClient is not allowed in " ++ (fp ++ " (use *.data.ts or core/api).")

/-- Source `verifyNoHttpClientInDisallowedFiles`. -/
def verifyNoHttpClientInDisallowedFiles (fs : FsModel) (files : List String) : List String :=
  files.flatMap fun fp =>
    if strEndsWith fp ".page.ts" || strEndsWith fp ".state.ts" ||
       strEndsWith fp ".guard.ts" || strEndsWith fp ".guards.ts" then
      let sf := parseSourceM fs fp
      if sf.imports.contains "@angular/common/http" && sf.identifiers.contains "HttpClient" then
        [httpClientMsg fp]
      else []
    else []

def providedInRootMsg (fp : String) : String :=
  "Avoid providedIn: \x27root\x27 in features: " ++ (fp ++ ". Provide via route-level providers.")

/-- Source `verifyNoProvidedInRootInFeatures`. -/
def verifyNoProvidedInRootInFeatures (fs : FsModel) (files : List String) (featuresDir : String) : List String :=
  files.flatMap fun fp =>
    if strStartsWith fp (featuresDir ++ "/") && strEndsWith fp ".ts" then
      let sf := parseSourceM fs fp
      if sf.identifiers.contains "providedIn" && sf.stringLits.contains "root" then
        [providedInRootMsg fp]
      else []
    else []

def svMustExportMsg (filePath : String) : String :=
  filePath ++ " must export a Routes array: export const ... = [ ... ]"

def svFirstObjectMsg (filePath n : String) : String :=
  filePath ++ (" export \"" ++ (n ++ "\" must start with a route object."))

def svProvidersMsg (filePath n : String) : String :=
  filePath ++ (" export \"" ++ (n ++ "\" first route must declare providers: [ ... ]."))

/-- Source `routeObjectHasProviders` of `verify-structure`. -/
def routeObjectHasProviders (props : List TsProp) : Bool :=
  props.any fun p =>
    match p with
    | .assign (some n) _ => n == "providers"
    | _ => false

/-- Source `verifyFeatureRouteProviders` of `verify-structure`. -/
def verifyFeatureRouteProviders (fs : FsModel) (featureDir featureName : String) : List String :=
  let filePath := pathJoin featureDir (featureName ++ ".routes.ts")
  if !fsExists fs filePath then ["Missing " ++ filePath]
  else
    let exported := (parseSourceM fs filePath).exportedArrays
    if exported.isEmpty then [svMustExportMsg filePath]
    else
      exported.flatMap fun ex =>
        match ex.2.head? with
        | some (.objLit props) =>
          if routeObjectHasProviders props then [] else [svProvidersMsg filePath ex.1]
        | _ => [svFirstObjectMsg filePath ex.1]

/-- Source `main` of `verify-structure`: the full violation list of a run,
in push order. A run fails (exit 1) exactly when this list is nonempty. -/
def verifyStructureMain (fs : FsModel) (appRoot featuresDir appRoutesFile : String) : List String :=
  let e1 := if !fsExists fs appRoot then [appRootMissingMsg appRoot] else []
  let e2 := if !fsExists fs featuresDir then [featuresDirMissingMsg featuresDir] else []
  let featureNames := listDirs fs featuresDir
  let e3 := if featureNames.isEmpty then [noFeatureFoldersMsg featuresDir] else []
  let e4 := missingFileErrors fs featuresDir featureNames
  let e5 := verifyNoStaticPageImportsInAppRoutes fs appRoutesFile
  let e6 :=
    if fsExists fs appRoot then
      let appFiles := listTsFiles fs appRoot
      verifyNoHttpClientInDisallowedFiles fs appFiles ++
        (verifyNoProvidedInRootInFeatures fs appFiles featuresDir ++
          featureNames.flatMap fun f => verifyFeatureRouteProviders fs (pathJoin featuresDir f) f)
    else []
  e1 ++ (e2 ++ (e3 ++ (e4 ++ (e5 ++ e6))))

/-- Source `main` of `verify-feature-routes`: the violation list and the
number of features checked. On an empty violation list the run prints the
success line naming that count and exits 0. -/
def verifyFeatureRoutesMain (fs : FsModel) (featuresDir : String) : List String × Nat :=
  let features := listDirs fs featuresDir
  (features.flatMap fun f =>
    let routesFile := pathJoin (pathJoin featuresDir f) (f ++ ".routes.ts")
    if !fsExists fs routesFile then [frMissingRoutesFileMsg routesFile]
    else validateFeatureRoutesFile routesFile (parseSourceM fs routesFile),
   features.length)

/-! Embedding of `verify-no-cross-feature-imports`. -/

/-- Index of the last occurrence of `x` in `xs` (JS `Array.prototype.lastIndexOf`,
with `none` in place of `-1`). -/
def lastIdxOf (xs : List String) (x : String) : Option Nat :=
  ((xs.enum.filter fun p => p.2 == x).map fun p => p.1).getLast?

/-- Source `featureOfFile`: split the path on the separator, find the last
`features` segment, and return the following segment. -/
def featureOfFile (p : String) : Option String :=
  let parts := strSplitOnChar p '/'
  match lastIdxOf parts "features" with
  | none => none
  | some idx => parts.get? (idx + 1)

/-- Source `resolveRelative`: `null` for non-relative specifiers, otherwise
the specifier resolved against the importing file's directory. -/
def resolveRelative (fromFile spec : String) : Option String :=
  if !strStartsWith spec "." then none
  else some (pathResolve (pathDirname fromFile) spec)

/-- The violation message of `verify-no-cross-feature-imports`, verbatim. -/
def crossFeatureMsg (relFrom fromFeature spec toFeature : String) : String :=
  "Cross-feature import is not allowed:\n  from: " ++ (relFrom ++
    (" (feature=" ++ (fromFeature ++ (")\n  import: " ++ (spec ++
      ("\n  to-feature: " ++ toFeature))))))

/-- The per-import body of `verify-no-cross-feature-imports` `main`: the
violations pushed for one import specifier of one file. -/
def crossFeatureImportCheck (workspaceRoot fp fromFeature spec : String) : List String :=
  match resolveRelative fp spec with
  | none => []
  | some resolved =>
    if !strIncludes resolved "features/" then []
    else
      match featureOfFile resolved with
      | some toFeature =>
        if toFeature != fromFeature then
          [crossFeatureMsg (pathRelative workspaceRoot fp) fromFeature spec toFeature]
        else []
      | none => []

/-- Source `main` of `verify-no-cross-feature-imports`, given the recursive
`.ts` listing of the features directory as pairs of file path and
module-import specifiers: the full violation list of a run. -/
def crossFeatureErrors (workspaceRoot : String) (files : List (String × List String)) : List String :=
  files.flatMap fun file =>
    match featureOfFile file.1 with
    | none => []
    | some fromFeature =>
      file.2.flatMap fun spec => crossFeatureImportCheck workspaceRoot file.1 fromFeature spec

/-!
Spec-side definitions, written from the specification's words rather than
from the source, for the refinement comparisons the claims call for.
-/

/-- Modelled from the spec: a deferred-import argument "matching
`./features/<x>/<x>.routes` for the same feature stem `<x>`" (claim C4's
wording), with a slash-free stem; the string must be exactly
`./features/` followed by a stem, a slash, the same stem, and `.routes`. -/
def specSameStemImportArg (s : String) : Bool :=
  strStartsWith s "./features/" && strEndsWith s ".routes" &&
    (let mid := s.data.drop 11
     match strSplitOnChar (String.mk (mid.take (mid.length - 7))) '/' with
     | [a, b] => a == b && a != ""
     | _ => false)

/-- Modelled from the spec: "the resolved path falls under the features
root" (claim C6's wording): the features directory path, followed by a
separator, is a prefix of the resolved path. -/
def specUnderFeaturesRoot (featuresDir resolved : String) : Bool :=
  strStartsWith resolved (featuresDir ++ "/")

/-! Character-extraction helpers used to separate violation messages. -/

/-- The last character of a string, if any. -/
def lastChar (s : String) : Option Char := s.data.getLast?

/-- The character at byte-free index `i` of a string, if any. -/
def charAt (s : String) (i : Nat) : Option Char := (s.data.drop i).head?

/-!
Concrete inputs for the claim witnesses and counterexamples.
-/

/-- A first route with `providers: []` (present but bound to an empty array
literal), otherwise conforming. -/
def exC2FirstProps : List TsProp :=
  [TsProp.assign (some "path") (TsExpr.strLit ""),
   TsProp.assign (some "providers") (TsExpr.arrLit []),
   TsProp.assign (some "loadComponent") (TsExpr.importCall [TsExpr.strLit "./home.page"])]

/-- A feature routes file whose single exported array starts with
`exC2FirstProps`. -/
def exC2File : ParsedFile :=
  ⟨[], [], [], [("HOME_ROUTES", [TsExpr.objLit exC2FirstProps])]⟩

/-- An app-route entry `path: "x"` whose `loadChildren` defers to
`./features/a/b.routes` (prefix and suffix fit, but the stems differ). -/
def exC4Lc : TsExpr := TsExpr.importCall [TsExpr.strLit "./features/a/b.routes"]

def exC4Props : List TsProp :=
  [TsProp.assign (some "path") (TsExpr.strLit "x"),
   TsProp.assign (some "loadChildren") exC4Lc]

/-- A conforming app-route entry for the C4 witness. -/
def exC4GoodProps : List TsProp :=
  [TsProp.assign (some "path") (TsExpr.strLit "home"),
   TsProp.assign (some "loadChildren")
     (TsExpr.importCall [TsExpr.strLit "./features/home/home.routes"])]

/-- An empty-path app-route entry carrying `redirectTo`, `pathMatch` and a
`loadComponent` loader. -/
def exC5Props : List TsProp :=
  [TsProp.assign (some "path") (TsExpr.strLit ""),
   TsProp.assign (some "redirectTo") (TsExpr.strLit "/home"),
   TsProp.assign (some "pathMatch") (TsExpr.strLit "full"),
   TsProp.assign (some "loadComponent") (TsExpr.importCall [TsExpr.strLit "./home.page"])]

/-- A pure-redirect empty-path entry for the C5 witness. -/
def exC5GoodProps : List TsProp :=
  [TsProp.assign (some "path") (TsExpr.strLit ""),
   TsProp.assign (some "redirectTo") (TsExpr.strLit "/home"),
   TsProp.assign (some "pathMatch") (TsExpr.strLit "full")]

/-- Properties of a nested child route whose `loadComponent` does not defer
to a `*.page` import. -/
def exC8ChildProps : List TsProp :=
  [TsProp.assign (some "path") (TsExpr.strLit "sub"),
   TsProp.assign (some "loadComponent") (TsExpr.importCall [TsExpr.strLit "./sub.component"])]

/-- A conforming first route that carries the offending child under its
`children` property. -/
def exC8FirstProps : List TsProp :=
  [TsProp.assign (some "path") (TsExpr.strLit ""),
   TsProp.assign (some "providers") (TsExpr.arrLit [TsExpr.node []]),
   TsProp.assign (some "loadComponent") (TsExpr.importCall [TsExpr.strLit "./x.page"]),
   TsProp.assign (some "children") (TsExpr.arrLit [TsExpr.objLit exC8ChildProps])]

/-- A feature routes file whose exported array hides the offending route in
a nested `children` array. -/
def exC8File : ParsedFile :=
  ⟨[], [], [], [("X_ROUTES", [TsExpr.objLit exC8FirstProps])]⟩

/-- A filesystem where the app root and a clean `app.routes.ts` exist but
the features directory is absent. -/
def fsNoFeaturesDir : FsModel :=
  { paths := ["/w/src/app", "/w/src/app/app.routes.ts"]
    dirEntries := []
    parses := [("/w/src/app/app.routes.ts", emptyParsedFile)]
    tsListings := [("/w/src/app", ["/w/src/app/app.routes.ts"])] }

/-- A conforming feature routes file for feature `a`. -/
def exARoutesFile : ParsedFile :=
  ⟨[], [], [],
   [("A_ROUTES", [TsExpr.objLit
      [TsProp.assign (some "path") (TsExpr.strLit ""),
       TsProp.assign (some "providers") (TsExpr.arrLit []),
       TsProp.assign (some "loadComponent") (TsExpr.importCall [TsExpr.strLit "./a.page"])]])]⟩

/-- A filesystem with one feature `a` that is missing two of its four
required files (`a.data.ts` and `a.state.ts`). -/
def fsTwoMissingFiles : FsModel :=
  { paths := ["/w/src/app", "/w/src/app/features", "/w/src/app/features/a",
              "/w/src/app/app.routes.ts",
              "/w/src/app/features/a/a.routes.ts", "/w/src/app/features/a/a.page.ts"]
    dirEntries := [("/w/src/app/features", ["a"])]
    parses := [("/w/src/app/app.routes.ts", emptyParsedFile),
               ("/w/src/app/features/a/a.routes.ts", exARoutesFile),
               ("/w/src/app/features/a/a.page.ts", emptyParsedFile)]
    tsListings := [("/w/src/app", ["/w/src/app/app.routes.ts",
      "/w/src/app/features/a/a.routes.ts", "/w/src/app/features/a/a.page.ts"])] }

/-- A feature routes file for the C9 and C10 witnesses: the first exported
array conforms, a second exported array has a non-empty first-route path and
a `component:`-carrying second route. -/
def exC9File : ParsedFile :=
  ⟨[], [], [],
   [("GOOD_ROUTES", [TsExpr.objLit
      [TsProp.assign (some "path") (TsExpr.strLit ""),
       TsProp.assign (some "providers") (TsExpr.arrLit []),
       TsProp.assign (some "loadComponent") (TsExpr.importCall [TsExpr.strLit "./a.page"])]]),
    ("BAD_ROUTES", [TsExpr.objLit
      [TsProp.assign (some "path") (TsExpr.strLit "admin"),
       TsProp.assign (some "providers") (TsExpr.arrLit []),
       TsProp.assign (some "loadComponent") (TsExpr.importCall [TsExpr.strLit "./a.page"])],
     TsExpr.objLit
      [TsProp.assign (some "path") (TsExpr.strLit "detail"),
       TsProp.assign (some "component") (TsExpr.node [])]])]⟩

/-- The second route of `BAD_ROUTES` in `exC9File`. -/
def exC10Props : List TsProp :=
  [TsProp.assign (some "path") (TsExpr.strLit "detail"),
   TsProp.assign (some "component") (TsExpr.node [])]

/-- Two wildcard app-route entries, for the C1 witness. -/
def exC1Elems : List TsExpr :=
  [TsExpr.objLit [TsProp.assign (some "path") (TsExpr.strLit "**")],
   TsExpr.objLit [TsProp.assign (some "path") (TsExpr.strLit "**")]]

/-- Elements of the second exported array of `exC9File`. -/
def exC9BadElems : List TsExpr :=
  [TsExpr.objLit
    [TsProp.assign (some "path") (TsExpr.strLit "admin"),
     TsProp.assign (some "providers") (TsExpr.arrLit []),
     TsProp.assign (some "loadComponent") (TsExpr.importCall [TsExpr.strLit "./a.page"])],
   TsExpr.objLit exC10Props]

/-! Helper lemmas: separating messages by a character position. -/

theorem ne_of_lastChar {s t : String} (h : lastChar s ≠ lastChar t) : s ≠ t :=
  fun e => h (congrArg lastChar e)

theorem ne_of_charAt {s t : String} (i : Nat) (h : charAt s i ≠ charAt t i) : s ≠ t :=
  fun e => h (congrArg (fun u => charAt u i) e)

theorem lastChar_append (a b : String) : lastChar (a ++ b) = (lastChar b).or (lastChar a) :=
  List.getLast?_append

theorem lastChar_frPathMsg (f n : String) : lastChar (frPathMsg f n) = some '\x27' := by
  have h : lastChar "\" first route must have path: \x27\x27" = some '\x27' := rfl
  simp [frPathMsg, lastChar_append, h, Option.or_some]

theorem lastChar_frComponentMsg (f n : String) : lastChar (frComponentMsg f n) = some '.' := by
  have h : lastChar "\" must not use \"component:\". Use loadComponent/loadChildren." = some '.' := rfl
  simp [frComponentMsg, lastChar_append, h, Option.or_some]

theorem lastChar_frEmptyMsg (f n : String) : lastChar (frEmptyMsg f n) = some '.' := by
  have h : lastChar "\" must not be empty." = some '.' := rfl
  simp [frEmptyMsg, lastChar_append, h, Option.or_some]

theorem lastChar_frNonObjMsg (f n : String) (idx : Nat) :
    lastChar (frNonObjMsg f n idx) = some '.' := by
  have h : lastChar "." = some '.' := rfl
  have h2 : ∀ m : Nat, lastChar (Nat.repr m ++ ".") = some '.' := by
    intro m; simp [lastChar_append, h, Option.or_some]
  simp [frNonObjMsg, lastChar_append, h2, Option.or_some]

theorem lastChar_frProvidersMsg (f n : String) : lastChar (frProvidersMsg f n) = some ']' := by
  have h : lastChar "\" first route must declare providers: [ ... ]" = some ']' := rfl
  simp [frProvidersMsg, lastChar_append, h, Option.or_some]

theorem lastChar_frLoaderMsg (f n : String) : lastChar (frLoaderMsg f n) = some 'n' := by
  have h : lastChar "\" first route must use loadComponent or loadChildren" = some 'n' := rfl
  simp [frLoaderMsg, lastChar_append, h, Option.or_some]

theorem lastChar_frFirstLcMsg (f n : String) : lastChar (frFirstLcMsg f n) = some 'e' := by
  have h : lastChar "\" first route loadComponent should import a *.page file" = some 'e' := rfl
  simp [frFirstLcMsg, lastChar_append, h, Option.or_some]

theorem lastChar_frAnyLcMsg (f n : String) : lastChar (frAnyLcMsg f n) = some 'e' := by
  have h : lastChar "\" has loadComponent not importing a *.page file" = some 'e' := rfl
  simp [frAnyLcMsg, lastChar_append, h, Option.or_some]

theorem charAt_wildcardCountMsg_zero (n : Nat) : charAt (wildcardCountMsg n) 0 = some 'A' := rfl

theorem charAt_wildcardCountMsg_24 (n : Nat) : charAt (wildcardCountMsg n) 24 = some 'e' := rfl

theorem charAt_loadChildrenMissingMsg_zero (pv : String) :
    charAt (loadChildrenMissingMsg pv) 0 = some 'R' := rfl

theorem charAt_loadChildrenBadMsg_zero (pv : String) :
    charAt (loadChildrenBadMsg pv) 0 = some 'R' := rfl

theorem wildcardCountMsg_ne_walk (n : Nat) (m : String)
    (hm : m = objectsOnlyMsg ∨ m = noComponentMsg ∨ m = needPathMsg ∨
      m = emptyRedirectMsg ∨ m = wildcardNotFoundMsg ∨
      (∃ pv, m = loadChildrenMissingMsg pv) ∨ (∃ pv, m = loadChildrenBadMsg pv)) :
    wildcardCountMsg n ≠ m := by
  rcases hm with h | h | h | h | h | ⟨pv, h⟩ | ⟨pv, h⟩ <;> subst h
  · exact ne_of_charAt 24 (by rw [charAt_wildcardCountMsg_24]; decide)
  · exact ne_of_charAt 0 (by rw [charAt_wildcardCountMsg_zero]; decide)
  · exact ne_of_charAt 0 (by rw [charAt_wildcardCountMsg_zero]; decide)
  · exact ne_of_charAt 0 (by rw [charAt_wildcardCountMsg_zero]; decide)
  · exact ne_of_charAt 0 (by rw [charAt_wildcardCountMsg_zero]; decide)
  · exact ne_of_charAt 0
      (by rw [charAt_wildcardCountMsg_zero, charAt_loadChildrenMissingMsg_zero]; decide)
  · exact ne_of_charAt 0
      (by rw [charAt_wildcardCountMsg_zero, charAt_loadChildrenBadMsg_zero]; decide)

theorem mem_ite_nil_right_iff {α : Type} {c : Prop} [Decidable c] {l : List α} {a : α} :
    (a ∈ if c then l else []) ↔ c ∧ a ∈ l := by
  split <;> simp_all

theorem mem_ite_nil_left_iff {α : Type} {c : Prop} [Decidable c] {l : List α} {a : α} :
    (a ∈ if c then [] else l) ↔ ¬c ∧ a ∈ l := by
  split <;> simp_all

/-- The wildcard-cardinality message never occurs among the per-element
walk errors. -/
theorem wildcardCountMsg_not_mem_walk (n : Nat) (el : TsExpr) :
    wildcardCountMsg n ∉ (appRouteElementCheck el).1 := by
  have h1 : wildcardCountMsg n ≠ objectsOnlyMsg :=
    wildcardCountMsg_ne_walk n _ (Or.inl rfl)
  have h2 : wildcardCountMsg n ≠ noComponentMsg :=
    wildcardCountMsg_ne_walk n _ (Or.inr (Or.inl rfl))
  have h3 : wildcardCountMsg n ≠ needPathMsg :=
    wildcardCountMsg_ne_walk n _ (Or.inr (Or.inr (Or.inl rfl)))
  have h4 : wildcardCountMsg n ≠ emptyRedirectMsg :=
    wildcardCountMsg_ne_walk n _ (Or.inr (Or.inr (Or.inr (Or.inl rfl))))
  have h5 : wildcardCountMsg n ≠ wildcardNotFoundMsg :=
    wildcardCountMsg_ne_walk n _ (Or.inr (Or.inr (Or.inr (Or.inr (Or.inl rfl)))))
  have h6 : ∀ pv, wildcardCountMsg n ≠ loadChildrenMissingMsg pv := fun pv =>
    wildcardCountMsg_ne_walk n _
      (Or.inr (Or.inr (Or.inr (Or.inr (Or.inr (Or.inl ⟨pv, rfl⟩))))))
  have h7 : ∀ pv, wildcardCountMsg n ≠ loadChildrenBadMsg pv := fun pv =>
    wildcardCountMsg_ne_walk n _
      (Or.inr (Or.inr (Or.inr (Or.inr (Or.inr (Or.inr ⟨pv, rfl⟩))))))
  intro hm
  cases el with
  | objLit props =>
    simp only [appRouteElementCheck] at hm
    rcases hp : (getPropInitializer props "path").bind getStringValue with _ | pv <;>
      rw [hp] at hm <;> simp only at hm
    · simp_all [List.mem_append, mem_ite_nil_right_iff]
    · split at hm
      · simp_all [List.mem_append, mem_ite_nil_right_iff]
      · split at hm
        · rcases hlc : getPropInitializer props "loadComponent" with _ | lc <;>
            rw [hlc] at hm <;>
            simp_all [List.mem_append, mem_ite_nil_right_iff, mem_ite_nil_left_iff]
        · rcases hlc : getPropInitializer props "loadChildren" with _ | lc <;>
            rw [hlc] at hm <;>
            simp_all [List.mem_append, mem_ite_nil_right_iff, mem_ite_nil_left_iff]
  | strLit s => simp only [appRouteElementCheck] at hm; simp_all
  | arrLit es => simp only [appRouteElementCheck] at hm; simp_all
  | importCall args => simp only [appRouteElementCheck] at hm; simp_all
  | node cs => simp only [appRouteElementCheck] at hm; simp_all

/-- The element's contribution to `wildcardCount` is 1 exactly on wildcard
entries. -/
theorem appRouteElementCheck_snd (el : TsExpr) :
    (appRouteElementCheck el).2 = if isWildcardEntry el = true then 1 else 0 := by
  cases el with
  | objLit props =>
    simp only [appRouteElementCheck, isWildcardEntry]
    split
    · rename_i heq; simp only [heq]; simp
    · rename_i pv heq; simp only [heq]
      by_cases h0 : pv = ""
      · subst h0; simp
      · by_cases h1 : pv = "**"
        · subst h1; simp
        · simp [h0, h1]
  | strLit s => simp [appRouteElementCheck, isWildcardEntry]
  | arrLit es => simp [appRouteElementCheck, isWildcardEntry]
  | importCall args => simp [appRouteElementCheck, isWildcardEntry]
  | node cs => simp [appRouteElementCheck, isWildcardEntry]

/-- The accumulated wildcard count is the number of wildcard entries. -/
theorem appWildcardCount_eq_countP (elems : List TsExpr) :
    appWildcardCount elems = elems.countP isWildcardEntry := by
  induction elems with
  | nil => rfl
  | cons e es ih =>
    simp only [appWildcardCount, List.map_cons, List.sum_cons] at ih ⊢
    rw [List.countP_cons, appRouteElementCheck_snd e, ih]
    split <;> simp [Nat.add_comm]

/-- C1: after walking all elements the checker's wildcard count equals the
number of entries whose literal path is `**`; the cardinality violation
(stating that count) is reported exactly when the count differs from 1, and
any reported cardinality message states the actual count; with exactly one
wildcard entry no cardinality violation appears. -/
theorem c1_wildcard_cardinality (elems : List TsExpr) :
    appWildcardCount elems = elems.countP isWildcardEntry ∧
    (wildcardCountMsg (appWildcardCount elems) ∈ verifyAppRoutes elems ↔
      appWildcardCount elems ≠ 1) ∧
    (∀ n : Nat, wildcardCountMsg n ∈ verifyAppRoutes elems →
      wildcardCountMsg n = wildcardCountMsg (appWildcardCount elems)) := by
  have hwalk : ∀ n : Nat,
      wildcardCountMsg n ∉ elems.flatMap fun el => (appRouteElementCheck el).1 := by
    intro n hmem
    rw [List.mem_flatMap] at hmem
    obtain ⟨el, _, hmem⟩ := hmem
    exact wildcardCountMsg_not_mem_walk n el hmem
  refine ⟨appWildcardCount_eq_countP elems, ⟨?_, ?_⟩, ?_⟩
  · intro hmem
    simp only [verifyAppRoutes, List.mem_append] at hmem
    rcases hmem with hmem | hmem
    · exact absurd hmem (hwalk _)
    · intro h1
      rw [if_neg (by simp [h1])] at hmem
      simp at hmem
  · intro h1
    simp only [verifyAppRoutes, List.mem_append]
    right
    rw [if_pos h1]
    exact List.mem_singleton.mpr rfl
  · intro n hmem
    simp only [verifyAppRoutes, List.mem_append] at hmem
    rcases hmem with hmem | hmem
    · exact absurd hmem (hwalk n)
    · split at hmem
      · rw [List.mem_singleton] at hmem; rw [hmem]
      · simp at hmem

/-- C1 witness: the theorem at a route array with two wildcard entries. -/
theorem c1_wildcard_cardinality_witness :
    appWildcardCount exC1Elems = exC1Elems.countP isWildcardEntry ∧
    (wildcardCountMsg (appWildcardCount exC1Elems) ∈ verifyAppRoutes exC1Elems ↔
      appWildcardCount exC1Elems ≠ 1) ∧
    (∀ n : Nat, wildcardCountMsg n ∈ verifyAppRoutes exC1Elems →
      wildcardCountMsg n = wildcardCountMsg (appWildcardCount exC1Elems)) :=
  c1_wildcard_cardinality exC1Elems

/-- C4 (amended): a non-empty, non-wildcard app-route entry passes the walk
exactly when it has no `component` property and its `loadChildren` contains
a deferred import whose argument starts with `./features/` and ends with
`.routes` (the stems are not compared). -/
theorem c4_app_route_loadchildren (props : List TsProp) (pv : String)
    (hpath : (getPropInitializer props "path").bind getStringValue = some pv)
    (h0 : pv ≠ "") (h1 : pv ≠ "**") :
    (appRouteElementCheck (TsExpr.objLit props)).1 = [] ↔
      (objectHasProp props "component" = false ∧
       ∃ lc, getPropInitializer props "loadChildren" = some lc ∧
         loadChildrenLooksLikeFeaturesImport lc = true) := by
  simp only [appRouteElementCheck, hpath]
  by_cases hc : objectHasProp props "component" <;>
    rcases hlc : getPropInitializer props "loadChildren" with _ | lc
  · simp [hc, h0, h1, hlc]
  · by_cases hl : loadChildrenLooksLikeFeaturesImport lc <;> simp [hc, h0, h1, hlc, hl]
  · simp [hc, h0, h1, hlc]
  · by_cases hl : loadChildrenLooksLikeFeaturesImport lc <;> simp [hc, h0, h1, hlc, hl]

/-- C4 witness: the theorem at a conforming `home` entry. -/
theorem c4_app_route_loadchildren_witness :
    (appRouteElementCheck (TsExpr.objLit exC4GoodProps)).1 = [] ↔
      (objectHasProp exC4GoodProps "component" = false ∧
       ∃ lc, getPropInitializer exC4GoodProps "loadChildren" = some lc ∧
         loadChildrenLooksLikeFeaturesImport lc = true) :=
  c4_app_route_loadchildren exC4GoodProps "home" rfl (by decide) (by decide)

/-- C4 counterexample: the entry `path: "x"` deferring to
`./features/a/b.routes` passes the checker without any violation, yet no
deferred import in its `loadChildren` matches `./features/<x>/<x>.routes`
with equal stems. -/
theorem c4_counterexample :
    (appRouteElementCheck (TsExpr.objLit exC4Props)).1 = [] ∧
    (getPropInitializer exC4Props "path").bind getStringValue = some "x" ∧
    getPropInitializer exC4Props "loadChildren" = some exC4Lc ∧
    exprHasImport specSameStemImportArg exC4Lc = false :=
  ⟨by decide, by decide, rfl, by decide⟩

/-- C5 (amended): an empty-path app-route entry passes the walk exactly when
it has no `component` property and carries both `redirectTo` and `pathMatch`;
loaders on the entry are not checked. -/
theorem c5_empty_path_redirect (props : List TsProp)
    (hpath : (getPropInitializer props "path").bind getStringValue = some "") :
    (appRouteElementCheck (TsExpr.objLit props)).1 = [] ↔
      (objectHasProp props "component" = false ∧
       objectHasProp props "redirectTo" = true ∧
       objectHasProp props "pathMatch" = true) := by
  simp only [appRouteElementCheck, hpath]
  by_cases hc : objectHasProp props "component" <;>
    by_cases hr : objectHasProp props "redirectTo" <;>
      by_cases hp2 : objectHasProp props "pathMatch" <;> simp [hc, hr, hp2]

/-- C5 witness: the theorem at a pure-redirect entry. -/
theorem c5_empty_path_redirect_witness :
    (appRouteElementCheck (TsExpr.objLit exC5GoodProps)).1 = [] ↔
      (objectHasProp exC5GoodProps "component" = false ∧
       objectHasProp exC5GoodProps "redirectTo" = true ∧
       objectHasProp exC5GoodProps "pathMatch" = true) :=
  c5_empty_path_redirect exC5GoodProps rfl

/-- C5 counterexample: an empty-path entry with `redirectTo`, `pathMatch`
and a `loadComponent` loader passes the checker without any violation,
although it is not a pure redirect. -/
theorem c5_counterexample :
    (appRouteElementCheck (TsExpr.objLit exC5Props)).1 = [] ∧
    objectHasProp exC5Props "loadComponent" = true ∧
    (getPropInitializer exC5Props "path").bind getStringValue = some "" := by
  refine ⟨by decide, by decide, by decide⟩

/-- Errors of a non-first element are the component ban, the
`loadComponent`-page violation, or the non-object report. -/
theorem mem_frElementCheck_nonzero (f n : String) (idx : Nat) (el : TsExpr) (m : String)
    (hidx : (idx == 0) = false) (hm : m ∈ frElementCheck f n idx el) :
    m = frComponentMsg f n ∨ m = frAnyLcMsg f n ∨ m = frNonObjMsg f n idx := by
  cases el with
  | objLit props =>
    simp only [frElementCheck, hidx] at hm
    rcases hlc : getPropInitializer props "loadComponent" with _ | lc <;>
      rw [hlc] at hm <;>
      simp_all [List.mem_append, mem_ite_nil_right_iff, mem_ite_nil_left_iff]
    tauto
  | strLit s => simp_all [frElementCheck]
  | arrLit es => simp_all [frElementCheck]
  | importCall args => simp_all [frElementCheck]
  | node cs => simp_all [frElementCheck]

/-- The first-route path violation occurs for element 0 exactly when it is
an object literal whose literal `path` is not the empty string. -/
theorem frPathMsg_mem_elementCheck_zero (f n : String) (el : TsExpr) :
    frPathMsg f n ∈ frElementCheck f n 0 el ↔
      ∃ props, el = TsExpr.objLit props ∧
        ((getPropInitializer props "path").bind getStringValue == some "") = false := by
  have hne1 : frPathMsg f n ≠ frComponentMsg f n :=
    ne_of_lastChar (by rw [lastChar_frPathMsg, lastChar_frComponentMsg]; decide)
  have hne2 : frPathMsg f n ≠ frProvidersMsg f n :=
    ne_of_lastChar (by rw [lastChar_frPathMsg, lastChar_frProvidersMsg]; decide)
  have hne3 : frPathMsg f n ≠ frLoaderMsg f n :=
    ne_of_lastChar (by rw [lastChar_frPathMsg, lastChar_frLoaderMsg]; decide)
  have hne4 : frPathMsg f n ≠ frFirstLcMsg f n :=
    ne_of_lastChar (by rw [lastChar_frPathMsg, lastChar_frFirstLcMsg]; decide)
  have hne5 : frPathMsg f n ≠ frAnyLcMsg f n :=
    ne_of_lastChar (by rw [lastChar_frPathMsg, lastChar_frAnyLcMsg]; decide)
  have hne6 : frPathMsg f n ≠ frNonObjMsg f n 0 :=
    ne_of_lastChar (by rw [lastChar_frPathMsg, lastChar_frNonObjMsg]; decide)
  cases el with
  | objLit props =>
    simp only [frElementCheck]
    rcases hlc : getPropInitializer props "loadComponent" with _ | lc <;>
      simp_all [List.mem_append, mem_ite_nil_right_iff, mem_ite_nil_left_iff]
  | strLit s => simp_all [frElementCheck]
  | arrLit es => simp_all [frElementCheck]
  | importCall args => simp_all [frElementCheck]
  | node cs => simp_all [frElementCheck]

/-- The first-route providers violation occurs for element 0 exactly when it
is an object literal without a `providers` property assignment. -/
theorem frProvidersMsg_mem_elementCheck_zero (f n : String) (el : TsExpr) :
    frProvidersMsg f n ∈ frElementCheck f n 0 el ↔
      ∃ props, el = TsExpr.objLit props ∧ objectHasProp props "providers" = false := by
  have hne1 : frProvidersMsg f n ≠ frComponentMsg f n :=
    ne_of_lastChar (by rw [lastChar_frProvidersMsg, lastChar_frComponentMsg]; decide)
  have hne2 : frProvidersMsg f n ≠ frPathMsg f n :=
    ne_of_lastChar (by rw [lastChar_frProvidersMsg, lastChar_frPathMsg]; decide)
  have hne3 : frProvidersMsg f n ≠ frLoaderMsg f n :=
    ne_of_lastChar (by rw [lastChar_frProvidersMsg, lastChar_frLoaderMsg]; decide)
  have hne4 : frProvidersMsg f n ≠ frFirstLcMsg f n :=
    ne_of_lastChar (by rw [lastChar_frProvidersMsg, lastChar_frFirstLcMsg]; decide)
  have hne5 : frProvidersMsg f n ≠ frAnyLcMsg f n :=
    ne_of_lastChar (by rw [lastChar_frProvidersMsg, lastChar_frAnyLcMsg]; decide)
  have hne6 : frProvidersMsg f n ≠ frNonObjMsg f n 0 :=
    ne_of_lastChar (by rw [lastChar_frProvidersMsg, lastChar_frNonObjMsg]; decide)
  cases el with
  | objLit props =>
    simp only [frElementCheck]
    rcases hlc : getPropInitializer props "loadComponent" with _ | lc <;>
      simp_all [List.mem_append, mem_ite_nil_right_iff, mem_ite_nil_left_iff]
  | strLit s => simp_all [frElementCheck]
  | arrLit es => simp_all [frElementCheck]
  | importCall args => simp_all [frElementCheck]
  | node cs => simp_all [frElementCheck]

/-- At any index, the `loadComponent`-page violation for an element occurs
exactly when the element is an object literal whose `loadComponent`
initializer lacks a deferred `*.page` import. -/
theorem frAnyLcMsg_mem_elementCheck (f n : String) (idx : Nat) (el : TsExpr) :
    frAnyLcMsg f n ∈ frElementCheck f n idx el ↔
      ∃ props lc, el = TsExpr.objLit props ∧
        getPropInitializer props "loadComponent" = some lc ∧
        loadComponentImportsPage lc = false := by
  have hne1 : frAnyLcMsg f n ≠ frComponentMsg f n :=
    ne_of_lastChar (by rw [lastChar_frAnyLcMsg, lastChar_frComponentMsg]; decide)
  have hne2 : frAnyLcMsg f n ≠ frPathMsg f n :=
    ne_of_lastChar (by rw [lastChar_frAnyLcMsg, lastChar_frPathMsg]; decide)
  have hne3 : frAnyLcMsg f n ≠ frProvidersMsg f n :=
    ne_of_lastChar (by rw [lastChar_frAnyLcMsg, lastChar_frProvidersMsg]; decide)
  have hne4 : frAnyLcMsg f n ≠ frLoaderMsg f n :=
    ne_of_lastChar (by rw [lastChar_frAnyLcMsg, lastChar_frLoaderMsg]; decide)
  have hne6 : ∀ k, frAnyLcMsg f n ≠ frNonObjMsg f n k := fun k =>
    ne_of_lastChar (by rw [lastChar_frAnyLcMsg, lastChar_frNonObjMsg]; decide)
  cases el with
  | objLit props =>
    simp only [frElementCheck]
    rcases hlc : getPropInitializer props "loadComponent" with _ | lc <;>
      by_cases hidx : (idx == 0) = true <;>
      simp_all [List.mem_append, mem_ite_nil_right_iff, mem_ite_nil_left_iff]
  | strLit s => simp_all [frElementCheck]
  | arrLit es => simp_all [frElementCheck]
  | importCall args => simp_all [frElementCheck]
  | node cs => simp_all [frElementCheck]

/-- A first element that produced no violations is an object literal with an
empty-string literal path and a `providers` property. -/
theorem frElementCheck_zero_eq_nil (f n : String) (el : TsExpr)
    (h : frElementCheck f n 0 el = []) :
    ∃ props, el = TsExpr.objLit props ∧
      (getPropInitializer props "path").bind getStringValue = some "" ∧
      objectHasProp props "providers" = true := by
  cases el with
  | objLit props =>
    simp only [frElementCheck] at h
    rcases hlc : getPropInitializer props "loadComponent" with _ | lc <;>
      simp_all [List.append_eq_nil]
  | strLit s => simp_all [frElementCheck]
  | arrLit es => simp_all [frElementCheck]
  | importCall args => simp_all [frElementCheck]
  | node cs => simp_all [frElementCheck]

/-- Membership in the indexed traversal. -/
theorem mem_frElementsCheck_iff (f n : String) (m : String) (els : List TsExpr) (idx : Nat) :
    m ∈ frElementsCheck f n idx els ↔
      ∃ i el, els.get? i = some el ∧ m ∈ frElementCheck f n (idx + i) el := by
  induction els generalizing idx with
  | nil => simp [frElementsCheck]
  | cons e es ih =>
    simp only [frElementsCheck, List.mem_append, ih]
    constructor
    · rintro (h | ⟨i, el, hg, hm⟩)
      · exact ⟨0, e, rfl, by simpa using h⟩
      · refine ⟨i + 1, el, by simpa using hg, ?_⟩
        have harith : idx + (i + 1) = idx + 1 + i := by omega
        rw [harith]
        exact hm
    · rintro ⟨i, el, hg, hm⟩
      cases i with
      | zero =>
        left
        have he : e = el := by simpa using hg
        subst he
        simpa using hm
      | succ j =>
        right
        refine ⟨j, el, by simpa using hg, ?_⟩
        have harith : idx + 1 + j = idx + (j + 1) := by omega
        rw [harith]
        exact hm

/-- Violations of one exported array are violations of the file. -/
theorem mem_validate_of_mem_export (f : String) (file : ParsedFile) (ex : String × List TsExpr)
    (hex : ex ∈ file.exportedArrays) (m : String) (hm : m ∈ frExportCheck f ex) :
    m ∈ validateFeatureRoutesFile f file := by
  unfold validateFeatureRoutesFile
  rw [if_neg (by simp [List.isEmpty_iff, List.ne_nil_of_mem hex])]
  rw [List.mem_flatMap]
  exact ⟨ex, hex, hm⟩

/-- Export-level characterization of the first-route path violation. -/
theorem frPathMsg_mem_exportCheck (f n : String) (elems : List TsExpr) (h : elems ≠ []) :
    frPathMsg f n ∈ frExportCheck f (n, elems) ↔
      ∃ props, elems.head? = some (TsExpr.objLit props) ∧
        ((getPropInitializer props "path").bind getStringValue == some "") = false := by
  obtain ⟨e, es, rfl⟩ := List.exists_cons_of_ne_nil h
  have hne1 : frPathMsg f n ≠ frComponentMsg f n :=
    ne_of_lastChar (by rw [lastChar_frPathMsg, lastChar_frComponentMsg]; decide)
  have hne2 : frPathMsg f n ≠ frAnyLcMsg f n :=
    ne_of_lastChar (by rw [lastChar_frPathMsg, lastChar_frAnyLcMsg]; decide)
  have hne3 : ∀ k, frPathMsg f n ≠ frNonObjMsg f n k := fun k =>
    ne_of_lastChar (by rw [lastChar_frPathMsg, lastChar_frNonObjMsg]; decide)
  simp only [frExportCheck, List.isEmpty_cons, Bool.false_eq_true, if_false,
    frElementsCheck, List.mem_append]
  constructor
  · rintro (hm | hm)
    · rw [frPathMsg_mem_elementCheck_zero] at hm
      obtain ⟨props, rfl, hp⟩ := hm
      exact ⟨props, rfl, hp⟩
    · exfalso
      rw [mem_frElementsCheck_iff] at hm
      obtain ⟨i, el, hg, hm⟩ := hm
      rcases mem_frElementCheck_nonzero f n (1 + i) el _ (by simp) hm with hc | hc | hc
      · exact hne1 hc
      · exact hne2 hc
      · exact hne3 _ hc
  · rintro ⟨props, hh, hp⟩
    left
    have he : e = TsExpr.objLit props := by simpa using hh
    subst he
    rw [frPathMsg_mem_elementCheck_zero]
    exact ⟨props, rfl, hp⟩

/-- Export-level characterization of the first-route providers violation. -/
theorem frProvidersMsg_mem_exportCheck (f n : String) (elems : List TsExpr) (h : elems ≠ []) :
    frProvidersMsg f n ∈ frExportCheck f (n, elems) ↔
      ∃ props, elems.head? = some (TsExpr.objLit props) ∧
        objectHasProp props "providers" = false := by
  obtain ⟨e, es, rfl⟩ := List.exists_cons_of_ne_nil h
  have hne1 : frProvidersMsg f n ≠ frComponentMsg f n :=
    ne_of_lastChar (by rw [lastChar_frProvidersMsg, lastChar_frComponentMsg]; decide)
  have hne2 : frProvidersMsg f n ≠ frAnyLcMsg f n :=
    ne_of_lastChar (by rw [lastChar_frProvidersMsg, lastChar_frAnyLcMsg]; decide)
  have hne3 : ∀ k, frProvidersMsg f n ≠ frNonObjMsg f n k := fun k =>
    ne_of_lastChar (by rw [lastChar_frProvidersMsg, lastChar_frNonObjMsg]; decide)
  simp only [frExportCheck, List.isEmpty_cons, Bool.false_eq_true, if_false,
    frElementsCheck, List.mem_append]
  constructor
  · rintro (hm | hm)
    · rw [frProvidersMsg_mem_elementCheck_zero] at hm
      obtain ⟨props, rfl, hp⟩ := hm
      exact ⟨props, rfl, hp⟩
    · exfalso
      rw [mem_frElementsCheck_iff] at hm
      obtain ⟨i, el, hg, hm⟩ := hm
      rcases mem_frElementCheck_nonzero f n (1 + i) el _ (by simp) hm with hc | hc | hc
      · exact hne1 hc
      · exact hne2 hc
      · exact hne3 _ hc
  · rintro ⟨props, hh, hp⟩
    left
    have he : e = TsExpr.objLit props := by simpa using hh
    subst he
    rw [frProvidersMsg_mem_elementCheck_zero]
    exact ⟨props, rfl, hp⟩

/-- C9: an exported route array is flagged with the first-route path
violation exactly when its first element is an object literal whose literal
`path` initializer is not the empty string; a violation-free export has an
empty-string first path; the violation propagates to the file's report. -/
theorem c9_first_route_path_required (f n : String) (elems : List TsExpr) (h : elems ≠ []) :
    (frPathMsg f n ∈ frExportCheck f (n, elems) ↔
      ∃ props, elems.head? = some (TsExpr.objLit props) ∧
        ((getPropInitializer props "path").bind getStringValue == some "") = false) ∧
    (frExportCheck f (n, elems) = [] →
      ∃ props, elems.head? = some (TsExpr.objLit props) ∧
        (getPropInitializer props "path").bind getStringValue = some "") ∧
    (∀ file : ParsedFile, (n, elems) ∈ file.exportedArrays →
      frPathMsg f n ∈ frExportCheck f (n, elems) →
      frPathMsg f n ∈ validateFeatureRoutesFile f file) := by
  refine ⟨frPathMsg_mem_exportCheck f n elems h, ?_, ?_⟩
  · intro hnil
    obtain ⟨e, es, rfl⟩ := List.exists_cons_of_ne_nil h
    simp only [frExportCheck, List.isEmpty_cons, Bool.false_eq_true, if_false,
      frElementsCheck, List.append_eq_nil] at hnil
    obtain ⟨props, rfl, hp, _⟩ := frElementCheck_zero_eq_nil f n e hnil.1
    exact ⟨props, rfl, hp⟩
  · intro file hex hm
    exact mem_validate_of_mem_export f file (n, elems) hex _ hm

/-- C9 witness: the theorem at the `BAD_ROUTES` export of `exC9File`. -/
theorem c9_first_route_path_required_witness :
    (frPathMsg "a.routes.ts" "BAD_ROUTES" ∈ frExportCheck "a.routes.ts" ("BAD_ROUTES", exC9BadElems) ↔
      ∃ props, exC9BadElems.head? = some (TsExpr.objLit props) ∧
        ((getPropInitializer props "path").bind getStringValue == some "") = false) ∧
    (frExportCheck "a.routes.ts" ("BAD_ROUTES", exC9BadElems) = [] →
      ∃ props, exC9BadElems.head? = some (TsExpr.objLit props) ∧
        (getPropInitializer props "path").bind getStringValue = some "") ∧
    (∀ file : ParsedFile, ("BAD_ROUTES", exC9BadElems) ∈ file.exportedArrays →
      frPathMsg "a.routes.ts" "BAD_ROUTES" ∈ frExportCheck "a.routes.ts" ("BAD_ROUTES", exC9BadElems) →
      frPathMsg "a.routes.ts" "BAD_ROUTES" ∈ validateFeatureRoutesFile "a.routes.ts" file) :=
  c9_first_route_path_required "a.routes.ts" "BAD_ROUTES" exC9BadElems
    (List.cons_ne_nil _ _)

/-- C2 (amended): the Feature-Route Provider Checker flags the first route
of an exported array for providers exactly when the `providers` property is
absent; a `providers` property bound to an empty array literal passes. -/
theorem c2_providers_presence_only (f n : String) (elems : List TsExpr) (props : List TsProp)
    (hhead : elems.head? = some (TsExpr.objLit props)) :
    (frProvidersMsg f n ∈ frExportCheck f (n, elems) ↔
      objectHasProp props "providers" = false) ∧
    (∀ file : ParsedFile, (n, elems) ∈ file.exportedArrays →
      objectHasProp props "providers" = false →
      frProvidersMsg f n ∈ validateFeatureRoutesFile f file) := by
  have h : elems ≠ [] := by cases elems <;> simp_all
  have hiff : frProvidersMsg f n ∈ frExportCheck f (n, elems) ↔
      objectHasProp props "providers" = false := by
    rw [frProvidersMsg_mem_exportCheck f n elems h]
    constructor
    · rintro ⟨props', hh', hp'⟩
      rw [hhead] at hh'
      obtain rfl : props = props' := by simpa using hh'
      exact hp'
    · intro hp
      exact ⟨props, hhead, hp⟩
  refine ⟨hiff, fun file hex hp => ?_⟩
  exact mem_validate_of_mem_export f file (n, elems) hex _ (hiff.mpr hp)

/-- C2 witness: the theorem at the `HOME_ROUTES` export of `exC2File`. -/
theorem c2_providers_presence_only_witness :
    (frProvidersMsg "f.routes.ts" "HOME_ROUTES" ∈
        frExportCheck "f.routes.ts" ("HOME_ROUTES", [TsExpr.objLit exC2FirstProps]) ↔
      objectHasProp exC2FirstProps "providers" = false) ∧
    (∀ file : ParsedFile,
      ("HOME_ROUTES", [TsExpr.objLit exC2FirstProps]) ∈ file.exportedArrays →
      objectHasProp exC2FirstProps "providers" = false →
      frProvidersMsg "f.routes.ts" "HOME_ROUTES" ∈
        validateFeatureRoutesFile "f.routes.ts" file) :=
  c2_providers_presence_only "f.routes.ts" "HOME_ROUTES" [TsExpr.objLit exC2FirstProps]
    exC2FirstProps rfl

/-- C2 counterexample: a first route whose `providers` is present but bound
to the empty array literal `[]` is not flagged: the whole file verifies with
zero violations. -/
theorem c2_counterexample :
    validateFeatureRoutesFile "f.routes.ts" exC2File = [] ∧
    getPropInitializer exC2FirstProps "providers" = some (TsExpr.arrLit []) ∧
    routeObjectHasProviders exC2FirstProps = true ∧
    (exC2File.exportedArrays.map Prod.fst) = ["HOME_ROUTES"] :=
  ⟨by decide, rfl, by decide, by decide⟩

/-- C8 (amended): within one exported route array of a feature routes file,
the `loadComponent`-page violation is reported exactly when some top-level
element is an object literal whose `loadComponent` initializer lacks a
deferred import ending in `.page`; nested `children` routes are not
traversed (see the counterexample). -/
theorem c8_loadcomponent_page_check (f n : String) (elems : List TsExpr) :
    frAnyLcMsg f n ∈ frExportCheck f (n, elems) ↔
      ∃ el ∈ elems, ∃ props lc, el = TsExpr.objLit props ∧
        getPropInitializer props "loadComponent" = some lc ∧
        loadComponentImportsPage lc = false := by
  cases elems with
  | nil =>
    have hne : frAnyLcMsg f n ≠ frEmptyMsg f n :=
      ne_of_lastChar (by rw [lastChar_frAnyLcMsg, lastChar_frEmptyMsg]; decide)
    simp [frExportCheck, hne]
  | cons e es =>
    simp only [frExportCheck, List.isEmpty_cons, Bool.false_eq_true, if_false]
    rw [mem_frElementsCheck_iff]
    constructor
    · rintro ⟨i, el, hg, hm⟩
      rw [frAnyLcMsg_mem_elementCheck] at hm
      obtain ⟨props, lc, rfl, hlc, hp⟩ := hm
      exact ⟨_, List.get?_mem hg, props, lc, rfl, hlc, hp⟩
    · rintro ⟨el, hel, props, lc, rfl, hlc, hp⟩
      obtain ⟨i, hg⟩ := List.get?_of_mem hel
      exact ⟨i, _, hg, (frAnyLcMsg_mem_elementCheck f n (0 + i) _).mpr
        ⟨props, lc, rfl, hlc, hp⟩⟩

/-- C8 counterexample: a route element nested inside a `children` array
declares `loadComponent` without a `*.page` deferred import, yet the file
verifies with zero violations — the pass only visits the top-level elements
of exported arrays. -/
theorem c8_counterexample :
    validateFeatureRoutesFile "x.routes.ts" exC8File = [] ∧
    getPropInitializer exC8FirstProps "children" =
      some (TsExpr.arrLit [TsExpr.objLit exC8ChildProps]) ∧
    getPropInitializer exC8ChildProps "loadComponent" =
      some (TsExpr.importCall [TsExpr.strLit "./sub.component"]) ∧
    loadComponentImportsPage (TsExpr.importCall [TsExpr.strLit "./sub.component"]) = false :=
  ⟨by decide, rfl, rfl, by decide⟩

/-- C10: every object-literal element of every exported route array of a
feature routes file that carries a `component` property assignment makes the
checker report the component ban for that export and hence for the file. -/
theorem c10_component_ban (f n : String) (elems : List TsExpr) (props : List TsProp)
    (el : TsExpr) (hel : el ∈ elems) (hobj : el = TsExpr.objLit props)
    (hcomp : objectHasProp props "component" = true) :
    frComponentMsg f n ∈ frExportCheck f (n, elems) ∧
    ∀ file : ParsedFile, (n, elems) ∈ file.exportedArrays →
      frComponentMsg f n ∈ validateFeatureRoutesFile f file := by
  have hmem : frComponentMsg f n ∈ frExportCheck f (n, elems) := by
    obtain ⟨e, es, rfl⟩ := List.exists_cons_of_ne_nil (List.ne_nil_of_mem hel)
    simp only [frExportCheck, List.isEmpty_cons, Bool.false_eq_true, if_false]
    rw [mem_frElementsCheck_iff]
    obtain ⟨i, hg⟩ := List.get?_of_mem hel
    refine ⟨i, el, hg, ?_⟩
    subst hobj
    simp [frElementCheck, hcomp, List.mem_append]
  exact ⟨hmem, fun file hex => mem_validate_of_mem_export f file (n, elems) hex _ hmem⟩

/-- C10 witness: the theorem at the `component:`-carrying second route of
the `BAD_ROUTES` export of `exC9File`. -/
theorem c10_component_ban_witness :
    frComponentMsg "a.routes.ts" "BAD_ROUTES" ∈
      frExportCheck "a.routes.ts" ("BAD_ROUTES", exC9BadElems) ∧
    ∀ file : ParsedFile, ("BAD_ROUTES", exC9BadElems) ∈ file.exportedArrays →
      frComponentMsg "a.routes.ts" "BAD_ROUTES" ∈
        validateFeatureRoutesFile "a.routes.ts" file :=
  c10_component_ban "a.routes.ts" "BAD_ROUTES" exC9BadElems exC10Props
    (TsExpr.objLit exC10Props) (by simp [exC9BadElems]) rfl (by decide)

/-- C3 (amended): with the features directory absent, the Structure Checker
reports both the directory-not-found violation and the no-feature-folders
violation (so it fails), while the Feature-Route Provider Checker returns no
violations and a zero feature count (a clean pass). -/
theorem c3_absent_features_dir (fs : FsModel) (appRoot featuresDir appRoutesFile : String)
    (h : fsExists fs featuresDir = false) :
    featuresDirMissingMsg featuresDir ∈
      verifyStructureMain fs appRoot featuresDir appRoutesFile ∧
    noFeatureFoldersMsg featuresDir ∈
      verifyStructureMain fs appRoot featuresDir appRoutesFile ∧
    verifyStructureMain fs appRoot featuresDir appRoutesFile ≠ [] ∧
    verifyFeatureRoutesMain fs featuresDir = ([], 0) := by
  have hld : listDirs fs featuresDir = [] := by simp [listDirs, h]
  have h1 : featuresDirMissingMsg featuresDir ∈
      verifyStructureMain fs appRoot featuresDir appRoutesFile := by
    simp [verifyStructureMain, h, hld, List.mem_append]
  have h2 : noFeatureFoldersMsg featuresDir ∈
      verifyStructureMain fs appRoot featuresDir appRoutesFile := by
    simp [verifyStructureMain, h, hld, List.mem_append]
  exact ⟨h1, h2, List.ne_nil_of_mem h1, by simp [verifyFeatureRoutesMain, hld]⟩

/-- C3 witness: the theorem at the concrete filesystem without a features
directory. -/
theorem c3_absent_features_dir_witness :
    featuresDirMissingMsg "/w/src/app/features" ∈
      verifyStructureMain fsNoFeaturesDir "/w/src/app" "/w/src/app/features"
        "/w/src/app/app.routes.ts" ∧
    noFeatureFoldersMsg "/w/src/app/features" ∈
      verifyStructureMain fsNoFeaturesDir "/w/src/app" "/w/src/app/features"
        "/w/src/app/app.routes.ts" ∧
    verifyStructureMain fsNoFeaturesDir "/w/src/app" "/w/src/app/features"
      "/w/src/app/app.routes.ts" ≠ [] ∧
    verifyFeatureRoutesMain fsNoFeaturesDir "/w/src/app/features" = ([], 0) :=
  c3_absent_features_dir fsNoFeaturesDir "/w/src/app" "/w/src/app/features"
    "/w/src/app/app.routes.ts" (by decide)

/-- C3 counterexample: with the features directory absent the Structure
Checker reports exactly two violations, not one, while the Feature-Route
Provider Checker passes with zero features. -/
theorem c3_counterexample :
    verifyStructureMain fsNoFeaturesDir "/w/src/app" "/w/src/app/features"
        "/w/src/app/app.routes.ts" =
      [featuresDirMissingMsg "/w/src/app/features",
       noFeatureFoldersMsg "/w/src/app/features"] ∧
    (verifyStructureMain fsNoFeaturesDir "/w/src/app" "/w/src/app/features"
        "/w/src/app/app.routes.ts").length = 2 ∧
    verifyFeatureRoutesMain fsNoFeaturesDir "/w/src/app/features" = ([], 0) :=
  ⟨by decide, by decide, by decide⟩

/-- Length of a flatMap that emits one element per kept item. -/
theorem length_flatMap_ite_singleton {α β : Type} (g : α → List β) (msg : α → β)
    (l : List α) :
    (l.flatMap fun x => if (g x).isEmpty then [] else [msg x]).length =
      (l.filter fun x => !(g x).isEmpty).length := by
  induction l with
  | nil => rfl
  | cons x xs ih =>
    rw [List.flatMap_cons, List.length_append, ih, List.filter_cons]
    cases hc : (g x).isEmpty <;> simp [hc, Nat.add_comm]

/-- C7 (amended): the Structure Checker checks all four required files of
every feature and reports, per feature with missing files, one violation
listing them all — so N features with missing files yield N violations,
while several files missing from one feature yield a single violation. -/
theorem c7_missing_files_per_feature (fs : FsModel)
    (appRoot featuresDir appRoutesFile : String) (featureNames : List String) :
    ((missingFileErrors fs featuresDir featureNames).length =
      (featureNames.filter fun f =>
        !(verifyFeatureFolder fs (pathJoin featuresDir f) f).isEmpty).length) ∧
    (∀ f m, m ∈ verifyFeatureFolder fs (pathJoin featuresDir f) f ↔
      (m ∈ requiredFeatureFiles f ∧
        fsExists fs (pathJoin (pathJoin featuresDir f) m) = false)) ∧
    (∀ f ∈ featureNames,
      (verifyFeatureFolder fs (pathJoin featuresDir f) f).isEmpty = false →
      featureMissingMsg (pathJoin featuresDir f) f
          (verifyFeatureFolder fs (pathJoin featuresDir f) f) ∈
        missingFileErrors fs featuresDir featureNames) ∧
    (∀ m ∈ missingFileErrors fs featuresDir (listDirs fs featuresDir),
      m ∈ verifyStructureMain fs appRoot featuresDir appRoutesFile) := by
  refine ⟨?_, ?_, ?_, ?_⟩
  · exact length_flatMap_ite_singleton
      (fun f => verifyFeatureFolder fs (pathJoin featuresDir f) f)
      (fun f => featureMissingMsg (pathJoin featuresDir f) f
        (verifyFeatureFolder fs (pathJoin featuresDir f) f)) featureNames
  · intro f m
    simp [verifyFeatureFolder, List.mem_filter]
  · intro f hf hc
    simp only [missingFileErrors]
    rw [List.mem_flatMap]
    exact ⟨f, hf, by simp [hc]⟩
  · intro m hm
    simp only [verifyStructureMain, List.mem_append]
    tauto

/-- C7 witness: the theorem at the concrete filesystem with feature `a`
missing two required files. -/
theorem c7_missing_files_per_feature_witness :
    ((missingFileErrors fsTwoMissingFiles "/w/src/app/features" ["a"]).length =
      (List.filter (fun f =>
        !(verifyFeatureFolder fsTwoMissingFiles
            (pathJoin "/w/src/app/features" f) f).isEmpty) ["a"]).length) ∧
    (∀ f m, m ∈ verifyFeatureFolder fsTwoMissingFiles
        (pathJoin "/w/src/app/features" f) f ↔
      (m ∈ requiredFeatureFiles f ∧
        fsExists fsTwoMissingFiles
          (pathJoin (pathJoin "/w/src/app/features" f) m) = false)) ∧
    (∀ f ∈ ["a"],
      (verifyFeatureFolder fsTwoMissingFiles (pathJoin "/w/src/app/features" f) f).isEmpty
          = false →
      featureMissingMsg (pathJoin "/w/src/app/features" f) f
          (verifyFeatureFolder fsTwoMissingFiles (pathJoin "/w/src/app/features" f) f) ∈
        missingFileErrors fsTwoMissingFiles "/w/src/app/features" ["a"]) ∧
    (∀ m ∈ missingFileErrors fsTwoMissingFiles "/w/src/app/features"
        (listDirs fsTwoMissingFiles "/w/src/app/features"),
      m ∈ verifyStructureMain fsTwoMissingFiles "/w/src/app" "/w/src/app/features"
        "/w/src/app/app.routes.ts") :=
  c7_missing_files_per_feature fsTwoMissingFiles "/w/src/app" "/w/src/app/features"
    "/w/src/app/app.routes.ts" ["a"]

/-- C7 counterexample: two required files missing from one feature produce a
single violation (whose message lists both), not two distinct violations. -/
theorem c7_counterexample :
    verifyStructureMain fsTwoMissingFiles "/w/src/app" "/w/src/app/features"
        "/w/src/app/app.routes.ts" =
      [featureMissingMsg "/w/src/app/features/a" "a" ["a.data.ts", "a.state.ts"]] ∧
    (verifyFeatureFolder fsTwoMissingFiles "/w/src/app/features/a" "a").length = 2 ∧
    (verifyStructureMain fsTwoMissingFiles "/w/src/app" "/w/src/app/features"
        "/w/src/app/app.routes.ts").length = 1 :=
  ⟨by decide, by decide, by decide⟩

/-- C6 (amended): a violation of the Cross-Feature Import Checker arises
exactly from a relative import whose resolved path contains a `features`
path segment and whose segment after the last `features` segment differs
from that of the importing file; the message names both features and the
specifier. Non-relative specifiers and same-feature resolutions never
produce a violation. -/
theorem c6_cross_feature_flagging (root : String) (files : List (String × List String))
    (m : String) :
    (m ∈ crossFeatureErrors root files ↔
      ∃ fp imps, (fp, imps) ∈ files ∧ ∃ spec ∈ imps, ∃ ff tf r,
        featureOfFile fp = some ff ∧
        resolveRelative fp spec = some r ∧
        strIncludes r "features/" = true ∧
        featureOfFile r = some tf ∧ tf ≠ ff ∧
        m = crossFeatureMsg (pathRelative root fp) ff spec tf) ∧
    (∀ fp ff spec, strStartsWith spec "." = false →
      crossFeatureImportCheck root fp ff spec = []) ∧
    (∀ fp ff spec r, resolveRelative fp spec = some r →
      featureOfFile r = some ff →
      crossFeatureImportCheck root fp ff spec = []) := by
  refine ⟨?_, ?_, ?_⟩
  · unfold crossFeatureErrors
    rw [List.mem_flatMap]
    constructor
    · rintro ⟨⟨fp, imps⟩, hfile, hm⟩
      rcases hff : featureOfFile fp with _ | ff <;> simp only [hff] at hm
      · simp at hm
      · rw [List.mem_flatMap] at hm
        obtain ⟨spec, hspec, hm⟩ := hm
        unfold crossFeatureImportCheck at hm
        rcases hr : resolveRelative fp spec with _ | r <;> simp only [hr] at hm
        · simp at hm
        · by_cases hin : strIncludes r "features/" = true
          · rw [if_neg (by simp [hin])] at hm
            rcases htf : featureOfFile r with _ | tf <;> simp only [htf] at hm
            · simp at hm
            · by_cases hne : (tf != ff) = true
              · rw [if_pos hne] at hm
                rw [List.mem_singleton] at hm
                exact ⟨fp, imps, hfile, spec, hspec, ff, tf, r, hff, hr, hin, htf,
                  bne_iff_ne.mp hne, hm⟩
              · rw [if_neg hne] at hm
                simp at hm
          · rw [if_pos (by simp [hin])] at hm
            simp at hm
    · rintro ⟨fp, imps, hfile, spec, hspec, ff, tf, r, hff, hr, hin, htf, hne, rfl⟩
      refine ⟨(fp, imps), hfile, ?_⟩
      simp only [hff]
      rw [List.mem_flatMap]
      refine ⟨spec, hspec, ?_⟩
      unfold crossFeatureImportCheck
      simp only [hr, hin, htf]
      rw [if_neg (by simp), if_pos (bne_iff_ne.mpr hne)]
      exact List.mem_singleton.mpr rfl
  · intro fp ff spec hrel
    unfold crossFeatureImportCheck resolveRelative
    simp [hrel]
  · intro fp ff spec r hr htf
    unfold crossFeatureImportCheck
    simp only [hr, htf]
    split
    · rfl
    · simp

/-- C6 witness: the theorem at a one-file input whose single relative import
crosses from feature `a` to feature `b`. -/
theorem c6_cross_feature_flagging_witness :
    (crossFeatureMsg "src/app/features/a/a.page.ts" "a" "../b/b.data" "b" ∈
        crossFeatureErrors "/w" [("/w/src/app/features/a/a.page.ts", ["../b/b.data"])] ↔
      ∃ fp imps, (fp, imps) ∈ [("/w/src/app/features/a/a.page.ts", ["../b/b.data"])] ∧
        ∃ spec ∈ imps, ∃ ff tf r,
          featureOfFile fp = some ff ∧
          resolveRelative fp spec = some r ∧
          strIncludes r "features/" = true ∧
          featureOfFile r = some tf ∧ tf ≠ ff ∧
          crossFeatureMsg "src/app/features/a/a.page.ts" "a" "../b/b.data" "b" =
            crossFeatureMsg (pathRelative "/w" fp) ff spec tf) ∧
    (∀ fp ff spec, strStartsWith spec "." = false →
      crossFeatureImportCheck "/w" fp ff spec = []) ∧
    (∀ fp ff spec r, resolveRelative fp spec = some r →
      featureOfFile r = some ff →
      crossFeatureImportCheck "/w" fp ff spec = []) :=
  c6_cross_feature_flagging "/w" [("/w/src/app/features/a/a.page.ts", ["../b/b.data"])]
    (crossFeatureMsg "src/app/features/a/a.page.ts" "a" "../b/b.data" "b")

/-- C6 counterexample: a file inside the features root importing
`../../../../lib/features/b/util` resolves outside the features root, yet
the checker flags it (the code tests for a `features/` substring of the
resolved path, not for the features root). -/
theorem c6_counterexample :
    (crossFeatureErrors "/w"
        [("/w/src/app/features/a/a.page.ts", ["../../../../lib/features/b/util"])]).length
      = 1 ∧
    resolveRelative "/w/src/app/features/a/a.page.ts" "../../../../lib/features/b/util" =
      some "/w/lib/features/b/util" ∧
    specUnderFeaturesRoot "/w/src/app/features" "/w/lib/features/b/util" = false ∧
    strStartsWith "/w/src/app/features/a/a.page.ts" ("/w/src/app/features" ++ "/") = true :=
  ⟨by decide, by decide, by decide, by decide⟩
